import Mathlib

/-!
Verification of the motion-resolution engine of the vim crate
(src/crates/vim/src/motion.rs) against its natural-language specification.

The motion code itself (the `Motion` enum, its classification tables,
`move_point`, `expand_selection`, and the per-motion helper functions) is
translated directly from the Rust source.  The collaborators it calls —
the display snapshot / position space adapter, the character classifier,
the boundary scanners and the selection type — live in other crates of the
repository and are not part of the source tree here; those are modelled
from the specification (sections 3, 4.1, 4.2, 6), each such definition
carries a doc comment saying so.  The display projection is modelled as
the identity (no wraps or folds), so display coordinates and buffer
coordinates coincide; a document is a list of lines plus the bracket-pair
ranges the language layer would report.
-/

namespace ZedVimMotion

/-- A (row, column) coordinate in the display space (`DisplayPoint` in the
editor crate; display = buffer in this model). -/
structure DisplayPoint where
  row : Nat
  column : Nat
deriving DecidableEq, Repr

/-- Modelled from the spec: Affinity Bias — Left or Right tie-break used when
clipping an ambiguous coordinate.  In this character-level model clipping is
unambiguous, so the bias never changes the result, but it is threaded through
every call exactly as in the source. -/
inductive Bias
  | left
  | right
deriving DecidableEq, Repr

/-- The goal column carried across vertical motions (`SelectionGoal` in the
language crate): either none or a remembered horizontal column. -/
inductive SelectionGoal
  | none
  | column (c : Nat)
deriving DecidableEq, Repr

/-- Character classes used by the word motions (`CharKind` in the editor
crate). -/
inductive CharKind
  | whitespace
  | punctuation
  | word
deriving DecidableEq, Repr

/-- Modelled from the spec (section 4.1): `char_kind` classifies a character
as Whitespace, Punctuation or Word-constituent. -/
def char_kind (c : Char) : CharKind :=
  if c.isWhitespace then CharKind.whitespace
  else if c.isAlphanum || c = '_' then CharKind.word
  else CharKind.punctuation

/-- Modelled from the spec (section 4.1): `coerce_punctuation` collapses
Punctuation into Word when the ignore-punctuation flag is set. -/
def CharKind.coerce_punctuation (kind : CharKind) (ignore_punctuation : Bool) : CharKind :=
  if ignore_punctuation then
    match kind with
    | CharKind.punctuation => CharKind.word
    | k => k
  else kind

/-- Modelled from the spec (sections 3, 6): the read-only snapshot of the
buffer/display state.  `lines` holds the document's lines without newline
terminators; `brackets` holds the bracket-pair ranges the language layer
reports, each as a pair of half-open offset ranges (open delimiter range,
close delimiter range) in the order the buffer yields them. -/
structure DisplaySnapshot where
  lines : List String
  brackets : List ((Nat × Nat) × (Nat × Nat))
deriving Repr

/-- Modelled from the spec (section 6): length of the line at a row
(0 if the row is out of range). -/
def line_len (map : DisplaySnapshot) (row : Nat) : Nat :=
  ((map.lines.get? row).getD "").length

/-- Modelled from the spec (section 6): the last row of the buffer. -/
def max_buffer_row (map : DisplaySnapshot) : Nat :=
  map.lines.length - 1

/-- Modelled from the spec (section 6): the maximal display position. -/
def max_point (map : DisplaySnapshot) : DisplayPoint :=
  ⟨max_buffer_row map, line_len map (max_buffer_row map)⟩

/-- Modelled from the spec (sections 3, 6): clip an arbitrary (row, column)
into a valid display position.  The affinity bias resolves intra-grapheme
ambiguity, which does not arise in this character-level model. -/
def clip_point (map : DisplaySnapshot) (p : DisplayPoint) (_bias : Bias) : DisplayPoint :=
  let r := min p.row (max_buffer_row map)
  ⟨r, min p.column (line_len map r)⟩

/-- Modelled from the spec (section 6): previous line boundary of a point,
returned as the (buffer point, display point) pair of the source; both
components coincide in this model. -/
def prev_line_boundary (map : DisplaySnapshot) (p : DisplayPoint) :
    DisplayPoint × DisplayPoint :=
  let r := min p.row (max_buffer_row map)
  (⟨r, 0⟩, ⟨r, 0⟩)

/-- Modelled from the spec (section 6): next line boundary of a point
(the end of the line containing it), returned as the (buffer point, display
point) pair of the source. -/
def next_line_boundary (map : DisplaySnapshot) (p : DisplayPoint) :
    DisplayPoint × DisplayPoint :=
  let r := min p.row (max_buffer_row map)
  (⟨r, line_len map r⟩, ⟨r, line_len map r⟩)

/-- The document's character sequence, with a newline between consecutive
lines (no trailing newline). -/
def textOf : List String → List Char
  | [] => []
  | [l] => l.data
  | l :: l2 :: ls => l.data ++ '\n' :: textOf (l2 :: ls)

/-- The document's character sequence of a snapshot. -/
def DisplaySnapshot.text (map : DisplaySnapshot) : List Char :=
  textOf map.lines

/-- Offset of the start of a row in the character sequence. -/
def offsetOfRow : List String → Nat → Nat
  | _, 0 => 0
  | [], _ + 1 => 0
  | l :: ls, r + 1 => l.length + 1 + offsetOfRow ls r

/-- Modelled from the spec (section 6): convert a display position to a
buffer offset. -/
def to_offset (map : DisplaySnapshot) (p : DisplayPoint) : Nat :=
  offsetOfRow map.lines p.row + p.column

/-- Walk the lines to recover the (row, column) of an offset, clamping past
the end of the document. -/
def pointOfOffset : List String → Nat → Nat → DisplayPoint
  | [], o, r => ⟨r, o⟩
  | [l], o, r => ⟨r, min o l.length⟩
  | l :: l2 :: ls, o, r =>
    if o ≤ l.length then ⟨r, o⟩
    else pointOfOffset (l2 :: ls) (o - (l.length + 1)) (r + 1)

/-- Modelled from the spec (section 6): convert a buffer offset to a display
position. -/
def to_display_point (map : DisplaySnapshot) (o : Nat) : DisplayPoint :=
  pointOfOffset map.lines o 0

/-- Modelled from the spec (section 6): character iteration forward from a
position, each character annotated with its display position
(`DisplaySnapshot::chars_at`). -/
def chars_at (map : DisplaySnapshot) (p : DisplayPoint) : List (Char × DisplayPoint) :=
  let o := to_offset map p
  (map.text.drop o).enum.map (fun ic => (ic.2, to_display_point map (o + ic.1)))

/-- Forward scan over a character/position list: return the position of the
right-hand character of the first pair satisfying the (state-threading)
predicate, or none.  The state thread mirrors the mutable closure state the
source's `next_word_start` uses. -/
def boundaryScan {σ : Type} (pred : σ → Char → Char → Bool × σ) :
    σ → List (Char × DisplayPoint) → Option DisplayPoint
  | s, x :: y :: rest =>
    let (found, s') := pred s x.1 y.1
    if found then some y.2 else boundaryScan pred s' (y :: rest)
  | _, _ => none

/-- Modelled from the spec (section 4.2): `movement::find_boundary` with a
stateful predicate — scans forward one position at a time, evaluating the
predicate on the (left, right) character pair straddling each candidate
boundary; returns the first position where it fires, or the document end if
none, clipping the result. -/
def find_boundary_with {σ : Type} (map : DisplaySnapshot) (p : DisplayPoint)
    (init : σ) (pred : σ → Char → Char → Bool × σ) : DisplayPoint :=
  match boundaryScan pred init (chars_at map p) with
  | some q => clip_point map q Bias.right
  | Option.none => clip_point map (max_point map) Bias.right

/-- Modelled from the spec (section 4.2): `movement::find_boundary` with a
pure predicate. -/
def find_boundary (map : DisplaySnapshot) (p : DisplayPoint)
    (pred : Char → Char → Bool) : DisplayPoint :=
  find_boundary_with map p Unit.unit (fun _ l r => (pred l r, Unit.unit))

/-- Backward scan helper: check the candidate boundary at each offset j,
j-1, ..., 1 (the boundary at offset j straddles the characters at offsets
j-1 and j) and return the first offset whose pair satisfies the predicate. -/
def precScan (t : List Char) (pred : Char → Char → Bool) : Nat → Option Nat
  | 0 => Option.none
  | j + 1 =>
    match t.get? j, t.get? (j + 1) with
    | some a, some b => if pred a b then some (j + 1) else precScan t pred j
    | _, _ => precScan t pred j

/-- Modelled from the spec (section 4.2): `movement::find_preceding_boundary`
— symmetric backward scan, returning the document start if no boundary is
found, clipping the result. -/
def find_preceding_boundary (map : DisplaySnapshot) (p : DisplayPoint)
    (pred : Char → Char → Bool) : DisplayPoint :=
  let o := to_offset map p
  match precScan map.text pred (o - 1) with
  | some j => clip_point map (to_display_point map j) Bias.left
  | Option.none => ⟨0, 0⟩

namespace Movement

/-- Modelled from the spec (section 6): `movement::saturating_left` — one
step left that never leaves the current row. -/
def saturating_left (_map : DisplaySnapshot) (p : DisplayPoint) : DisplayPoint :=
  if p.column > 0 then ⟨p.row, p.column - 1⟩ else p

/-- Modelled from the spec (section 6): `movement::left` — one step left,
wrapping to the end of the previous line at column 0. -/
def left (map : DisplaySnapshot) (p : DisplayPoint) : DisplayPoint :=
  if p.column > 0 then ⟨p.row, p.column - 1⟩
  else if p.row > 0 then ⟨p.row - 1, line_len map (p.row - 1)⟩
  else ⟨0, 0⟩

/-- Modelled from the spec (section 6): `movement::saturating_right` — one
step right that never leaves the current row. -/
def saturating_right (map : DisplaySnapshot) (p : DisplayPoint) : DisplayPoint :=
  if p.column < line_len map p.row then ⟨p.row, p.column + 1⟩ else p

/-- Modelled from the spec (section 3, Goal): `movement::down` — move one row
down, landing at the goal column (or the current column when no goal is
remembered), clamped to the line length, and remember the goal column. -/
def down (map : DisplaySnapshot) (p : DisplayPoint) (goal : SelectionGoal)
    (_preserve_column_at_end : Bool) : DisplayPoint × SelectionGoal :=
  let goal_column := match goal with
    | SelectionGoal.column c => c
    | SelectionGoal.none => p.column
  let r := min (p.row + 1) (max_buffer_row map)
  (⟨r, min goal_column (line_len map r)⟩, SelectionGoal.column goal_column)

/-- Modelled from the spec (section 3, Goal): `movement::up` — move one row
up, landing at the goal column (or the current column when no goal is
remembered), clamped to the line length, and remember the goal column. -/
def up (map : DisplaySnapshot) (p : DisplayPoint) (goal : SelectionGoal)
    (_preserve_column_at_end : Bool) : DisplayPoint × SelectionGoal :=
  let goal_column := match goal with
    | SelectionGoal.column c => c
    | SelectionGoal.none => p.column
  let r := p.row - 1
  (⟨r, min goal_column (line_len map r)⟩, SelectionGoal.column goal_column)

/-- A row is blank when its line is empty. -/
def isBlankRow (map : DisplaySnapshot) (r : Nat) : Bool :=
  line_len map r = 0

/-- Upward paragraph scan: from a row, first skip blank rows, then skip the
non-blank rows of the paragraph, stopping on the blank row found (or row 0). -/
def paraUp (map : DisplaySnapshot) : Nat → Bool → Nat
  | 0, _ => 0
  | r + 1, seen =>
    if isBlankRow map r then (if seen then r else paraUp map r seen)
    else paraUp map r true

/-- Downward paragraph scan with fuel: from a row, first skip blank rows,
then skip the non-blank rows of the paragraph, stopping on the blank row
found (or the last row). -/
def paraDown (map : DisplaySnapshot) : Nat → Nat → Bool → Nat
  | 0, r, _ => r
  | f + 1, r, seen =>
    if max_buffer_row map ≤ r then r
    else if isBlankRow map (r + 1) then
      (if seen then r + 1 else paraDown map f (r + 1) seen)
    else paraDown map f (r + 1) true

/-- Modelled from the spec (sections 4.4, 6): `movement::start_of_paragraph`
— move to the previous paragraph boundary (a blank line, or the document
start), repeated for the count; each invocation advances past one full
paragraph transition. -/
def start_of_paragraph (map : DisplaySnapshot) (p : DisplayPoint) :
    Nat → DisplayPoint
  | 0 => p
  | t + 1 => start_of_paragraph map ⟨paraUp map p.row false, 0⟩ t

/-- Modelled from the spec (sections 4.4, 6): `movement::end_of_paragraph` —
move to the next paragraph boundary (a blank line, or the document end),
repeated for the count; each invocation advances past one full paragraph
transition. -/
def end_of_paragraph (map : DisplaySnapshot) (p : DisplayPoint) :
    Nat → DisplayPoint
  | 0 => p
  | t + 1 =>
    let r := paraDown map (max_buffer_row map) p.row false
    let q : DisplayPoint := if isBlankRow map r then ⟨r, 0⟩ else max_point map
    end_of_paragraph map q t

end Movement

/-- Modelled from the spec (section 4.4): `DisplaySnapshot::clip_at_line_end`
— a point sitting exactly at a line's end is pulled back onto the line's
last character. -/
def clip_at_line_end (map : DisplaySnapshot) (p : DisplayPoint) : DisplayPoint :=
  let q := clip_point map p Bias.left
  if q.column = line_len map q.row ∧ q.column > 0 then ⟨q.row, q.column - 1⟩ else q

/-- Modelled from the spec (sections 4.6, 6): `DisplaySnapshot::find_while` —
scan forward from the given position through characters while the predicate
holds, yielding (in document order) every position where the target text
matches; the scan region starts at the position itself. -/
def find_while (map : DisplaySnapshot) (p : DisplayPoint) (target : String)
    (pred : Char → Bool) : List DisplayPoint :=
  let o := to_offset map p
  let n := ((map.text.drop o).takeWhile pred).length
  (List.range n).filterMap (fun i =>
    if (map.text.drop (o + i)).take target.length = target.data then
      some (to_display_point map (o + i))
    else Option.none)

/-- Modelled from the spec (sections 4.6, 6): `DisplaySnapshot::reverse_find_while`
— scan backward from the given position through characters while the
predicate holds, yielding (nearest first) every position where the target
text matches; the scan region starts at the position itself. -/
def reverse_find_while (map : DisplaySnapshot) (p : DisplayPoint) (target : String)
    (pred : Char → Bool) : List DisplayPoint :=
  let o := to_offset map p
  let m := ((map.text.take (o + 1)).reverse.takeWhile pred).length
  (List.range m).filterMap (fun i =>
    if (map.text.drop (o - i)).take target.length = target.data then
      some (to_display_point map (o - i))
    else Option.none)

/-- Translated from src/crates/vim/src/motion.rs: `left` — repeat a
saturating left step, breaking as soon as the column reaches 0. -/
def left (map : DisplaySnapshot) (p : DisplayPoint) : Nat → DisplayPoint
  | 0 => p
  | t + 1 =>
    let q := Movement.saturating_left map p
    if q.column = 0 then q else left map q t

/-- Translated from src/crates/vim/src/motion.rs: `backspace` — repeat an
unguarded left step. -/
def backspace (map : DisplaySnapshot) (p : DisplayPoint) : Nat → DisplayPoint
  | 0 => p
  | t + 1 => backspace map (Movement.left map p) t

/-- Translated from src/crates/vim/src/motion.rs: `down`. -/
def down (map : DisplaySnapshot) (p : DisplayPoint) (goal : SelectionGoal) :
    Nat → DisplayPoint × SelectionGoal
  | 0 => (p, goal)
  | t + 1 =>
    let (q, g) := Movement.down map p goal true
    down map q g t

/-- Translated from src/crates/vim/src/motion.rs: `up`. -/
def up (map : DisplaySnapshot) (p : DisplayPoint) (goal : SelectionGoal) :
    Nat → DisplayPoint × SelectionGoal
  | 0 => (p, goal)
  | t + 1 =>
    let (q, g) := Movement.up map p goal true
    up map q g t

/-- Translated from src/crates/vim/src/motion.rs: `right` — repeat a
saturating right step, breaking when it no longer moves. -/
def right (map : DisplaySnapshot) (p : DisplayPoint) : Nat → DisplayPoint
  | 0 => p
  | t + 1 =>
    let q := Movement.saturating_right map p
    if p = q then p else right map q t

/-- Translated from src/crates/vim/src/motion.rs: `next_word_start` — each
repetition scans forward for a class change whose right class is not
Whitespace, or a second crossed newline, or a newline directly after a
newline; the crossed-newline flag is threaded through the scan. -/
def next_word_start (map : DisplaySnapshot) (p : DisplayPoint)
    (ignore_punctuation : Bool) : Nat → DisplayPoint
  | 0 => p
  | t + 1 =>
    let q := find_boundary_with map p false (fun crossed_newline l r =>
      let left_kind := (char_kind l).coerce_punctuation ignore_punctuation
      let right_kind := (char_kind r).coerce_punctuation ignore_punctuation
      let at_newline := decide (r = '\n')
      let found :=
        (decide (left_kind ≠ right_kind) && decide (right_kind ≠ CharKind.whitespace))
        || (at_newline && crossed_newline)
        || (at_newline && decide (l = '\n'))
      (found, crossed_newline || at_newline))
    next_word_start map q ignore_punctuation t

/-- Translated from src/crates/vim/src/motion.rs: `next_word_end` — each
repetition advances one column, scans forward for a class change whose left
class is not Whitespace, backs off one column unless the character after the
landing position's character is a newline or absent, and clips left. -/
def next_word_end (map : DisplaySnapshot) (p : DisplayPoint)
    (ignore_punctuation : Bool) : Nat → DisplayPoint
  | 0 => p
  | t + 1 =>
    let p1 : DisplayPoint := ⟨p.row, p.column + 1⟩
    let p2 := find_boundary map p1 (fun l r =>
      let left_kind := (char_kind l).coerce_punctuation ignore_punctuation
      let right_kind := (char_kind r).coerce_punctuation ignore_punctuation
      decide (left_kind ≠ right_kind) && decide (left_kind ≠ CharKind.whitespace))
    let p3 : DisplayPoint :=
      if !((((chars_at map p2).get? 1).map (fun cp => decide (cp.1 = '\n'))).getD true)
      then ⟨p2.row, p2.column - 1⟩
      else p2
    next_word_end map (clip_point map p3 Bias.left) ignore_punctuation t

/-- Translated from src/crates/vim/src/motion.rs: `previous_word_start` —
each repetition scans backward for a class change whose right character is
not whitespace, or a left character that is a newline. -/
def previous_word_start (map : DisplaySnapshot) (p : DisplayPoint)
    (ignore_punctuation : Bool) : Nat → DisplayPoint
  | 0 => p
  | t + 1 =>
    let q := find_preceding_boundary map p (fun l r =>
      let left_kind := (char_kind l).coerce_punctuation ignore_punctuation
      let right_kind := (char_kind r).coerce_punctuation ignore_punctuation
      (decide (left_kind ≠ right_kind) && !r.isWhitespace) || decide (l = '\n'))
    previous_word_start map q ignore_punctuation t

/-- Loop of `first_non_whitespace`: walk the characters of the line from
column 0, remembering the last visited position; a newline aborts to the
origin, the first non-whitespace character stops the walk. -/
def fnwGo (map : DisplaySnapshot) (origin : DisplayPoint) :
    List (Char × DisplayPoint) → DisplayPoint → DisplayPoint
  | [], last => clip_point map last Bias.left
  | (ch, pt) :: rest, _last =>
    if ch = '\n' then origin
    else if char_kind ch ≠ CharKind.whitespace then clip_point map pt Bias.left
    else fnwGo map origin rest pt

/-- Translated from src/crates/vim/src/motion.rs: `first_non_whitespace`. -/
def first_non_whitespace (map : DisplaySnapshot) (p : DisplayPoint) : DisplayPoint :=
  fnwGo map p (chars_at map ⟨p.row, 0⟩) ⟨p.row, 0⟩

/-- Translated from src/crates/vim/src/motion.rs: `start_of_line`. -/
def start_of_line (map : DisplaySnapshot) (p : DisplayPoint) : DisplayPoint :=
  (prev_line_boundary map p).2

/-- Translated from src/crates/vim/src/motion.rs: `end_of_line`. -/
def end_of_line (map : DisplaySnapshot) (p : DisplayPoint) : DisplayPoint :=
  clip_point map (next_line_boundary map p).2 Bias.left

/-- Translated from src/crates/vim/src/motion.rs: `start_of_document` —
row (count - 1), preserving the column, clipped. -/
def start_of_document (map : DisplaySnapshot) (p : DisplayPoint) (line : Nat) :
    DisplayPoint :=
  clip_point map ⟨line - 1, p.column⟩ Bias.left

/-- Translated from src/crates/vim/src/motion.rs: `end_of_document` —
row (count - 1) when a count was supplied, else the last row, preserving the
column, clipped. -/
def end_of_document (map : DisplaySnapshot) (p : DisplayPoint) (line : Option Nat) :
    DisplayPoint :=
  let new_row := match line with
    | some l => l - 1
    | Option.none => max_buffer_row map
  clip_point map ⟨new_row, p.column⟩ Bias.left

/-- The usize::MAX sentinel the bracket-matching loop starts its closest
distance from. -/
def usizeMax : Nat := 2 ^ 64 - 1

/-- Translated from src/crates/vim/src/motion.rs: the candidate-selection
loop of `matching` over the reported bracket pairs, threading the
(closest destination, closest distance) accumulator; within one pair the
opening anchor is examined before the closing anchor, and a successful
update skips the rest of the pair. -/
def matchingLoop (offset : Nat) (line_range : Nat × Nat) :
    List ((Nat × Nat) × (Nat × Nat)) → Option Nat × Nat → Option Nat × Nat
  | [], acc => acc
  | pr :: rest, (dest, closest) =>
    if offset ≤ pr.1.1 ∧ line_range.1 ≤ pr.1.1 ∧ pr.1.1 < line_range.2 ∧
        pr.1.1 - offset < closest then
      matchingLoop offset line_range rest (some pr.2.1, pr.1.1 - offset)
    else if offset ≤ pr.2.1 ∧ line_range.1 ≤ pr.2.1 ∧ pr.2.1 < line_range.2 ∧
        pr.2.1 - offset < closest then
      matchingLoop offset line_range rest (some pr.1.1, pr.2.1 - offset)
    else matchingLoop offset line_range rest (dest, closest)

/-- Modelled from the spec (sections 4.5, 6): `BufferSnapshot::bracket_ranges`
— the bracket pairs whose overall range overlaps the queried offset range,
in the snapshot's stored order. -/
def bracket_ranges (map : DisplaySnapshot) (range : Nat × Nat) :
    Option (List ((Nat × Nat) × (Nat × Nat))) :=
  some (map.brackets.filter (fun pr =>
    decide (pr.1.1 ≤ range.2) && decide (range.1 ≤ pr.2.2)))

/-- Translated from src/crates/vim/src/motion.rs: `matching` — compute the
current line's span (from previous to next line boundary, or to the document
end when the cursor sits exactly on the line boundary), query the bracket
pairs overlapping the trimmed span, select the candidate anchor at or after
the cursor and within the line with minimal forward distance, and jump to
its counterpart's start; without a qualifying pair the cursor stays. -/
def matching (map : DisplaySnapshot) (display_point : DisplayPoint) : DisplayPoint :=
  let point := display_point
  let offset := to_offset map point
  let line_end0 := (next_line_boundary map point).1
  let line_end := if line_end0 = point then max_point map else line_end0
  let line_start := (prev_line_boundary map point).1
  let visible_end : DisplayPoint := ⟨line_end.row, line_end.column - 1⟩
  let visible_range : Nat × Nat := (to_offset map line_start, to_offset map visible_end)
  match bracket_ranges map visible_range with
  | some ranges =>
    let line_range : Nat × Nat := (to_offset map line_start, to_offset map line_end)
    match (matchingLoop offset line_range ranges (Option.none, usizeMax)).1 with
    | some destination => to_display_point map destination
    | Option.none => display_point
  | Option.none => display_point

/-- The stop predicate of the character-search scans: keep scanning while
the character is not a newline. -/
def notNewline : Char → Bool := fun ch => !(ch = '\n')

/-- The matches a forward character search considers: forward matches of the
target up to but not including a newline, the starting position itself
skipped. -/
def forwardMatches (map : DisplaySnapshot) (p : DisplayPoint) (target : String) :
    List DisplayPoint :=
  (find_while map p target notNewline).dropWhile (fun q => decide (q = p))

/-- The matches a backward character search considers: backward matches of
the target up to but not including a newline, the starting position itself
skipped. -/
def backwardMatches (map : DisplaySnapshot) (p : DisplayPoint) (target : String) :
    List DisplayPoint :=
  (reverse_find_while map p target notNewline).dropWhile (fun q => decide (q = p))

/-- Translated from src/crates/vim/src/motion.rs: `find_forward` — scan
forward while not crossing a newline, skip the starting position, take the
count-th match; `before` lands one column earlier (clipped right); with too
few matches the original position is returned. -/
def find_forward (map : DisplaySnapshot) (p : DisplayPoint) (before : Bool)
    (target : String) (times : Nat) : DisplayPoint :=
  match (forwardMatches map p target).get? (times - 1) with
  | some found =>
    if before then clip_point map ⟨found.row, found.column - 1⟩ Bias.right
    else found
  | Option.none => p

/-- Translated from src/crates/vim/src/motion.rs: `find_backward` — scan
backward while not crossing a newline, skip the starting position, take the
count-th match; `after` lands one column later (clipped left); with too few
matches the original position is returned. -/
def find_backward (map : DisplaySnapshot) (p : DisplayPoint) (after : Bool)
    (target : String) (times : Nat) : DisplayPoint :=
  match (backwardMatches map p target).get? (times - 1) with
  | some found =>
    if after then clip_point map ⟨found.row, found.column + 1⟩ Bias.left
    else found
  | Option.none => p

/-- Translated from src/crates/vim/src/motion.rs: `next_line_start` — first
non-whitespace character of the row `times` below, clamped to the last
row. -/
def next_line_start (map : DisplaySnapshot) (p : DisplayPoint) (times : Nat) :
    DisplayPoint :=
  let new_row := min (p.row + times) (max_buffer_row map)
  first_non_whitespace map (clip_point map ⟨new_row, 0⟩ Bias.left)

/-- Translated from src/crates/vim/src/motion.rs: the `Motion` enum. -/
inductive Motion
  | Left
  | Backspace
  | Down
  | Up
  | Right
  | NextWordStart (ignore_punctuation : Bool)
  | NextWordEnd (ignore_punctuation : Bool)
  | PreviousWordStart (ignore_punctuation : Bool)
  | FirstNonWhitespace
  | CurrentLine
  | StartOfLine
  | EndOfLine
  | StartOfParagraph
  | EndOfParagraph
  | StartOfDocument
  | EndOfDocument
  | Matching
  | FindForward (before : Bool) (text : String)
  | FindBackward (after : Bool) (text : String)
  | NextLineStart
deriving DecidableEq, Repr

/-- Translated from src/crates/vim/src/motion.rs: `Motion::linewise`. -/
def Motion.linewise : Motion → Bool
  | Down | Up | StartOfDocument | EndOfDocument | CurrentLine | NextLineStart
  | StartOfParagraph | EndOfParagraph => true
  | EndOfLine
  | NextWordEnd _
  | Matching
  | FindForward _ _
  | Left
  | Backspace
  | Right
  | StartOfLine
  | NextWordStart _
  | PreviousWordStart _
  | FirstNonWhitespace
  | FindBackward _ _ => false

/-- Translated from src/crates/vim/src/motion.rs: `Motion::infallible`. -/
def Motion.infallible : Motion → Bool
  | StartOfDocument | EndOfDocument | CurrentLine => true
  | Down
  | Up
  | EndOfLine
  | NextWordEnd _
  | Matching
  | FindForward _ _
  | Left
  | Backspace
  | Right
  | StartOfLine
  | StartOfParagraph
  | EndOfParagraph
  | NextWordStart _
  | PreviousWordStart _
  | FirstNonWhitespace
  | FindBackward _ _
  | NextLineStart => false

/-- Translated from src/crates/vim/src/motion.rs: `Motion::inclusive`. -/
def Motion.inclusive : Motion → Bool
  | Down
  | Up
  | StartOfDocument
  | EndOfDocument
  | CurrentLine
  | EndOfLine
  | NextWordEnd _
  | Matching
  | FindForward _ _
  | NextLineStart => true
  | Left
  | Backspace
  | Right
  | StartOfLine
  | StartOfParagraph
  | EndOfParagraph
  | NextWordStart _
  | PreviousWordStart _
  | FirstNonWhitespace
  | FindBackward _ _ => false

/-- Translated from src/crates/vim/src/motion.rs: the match inside
`Motion::move_point` computing the raw (new position, goal) pair, before the
no-move/infallible failure check. -/
def Motion.move_point_raw (self : Motion) (map : DisplaySnapshot)
    (point : DisplayPoint) (goal : SelectionGoal) (maybe_times : Option Nat) :
    DisplayPoint × SelectionGoal :=
  let times := maybe_times.getD 1
  match self with
  | Motion.Left => (left map point times, SelectionGoal.none)
  | Motion.Backspace => (backspace map point times, SelectionGoal.none)
  | Motion.Down => down map point goal times
  | Motion.Up => up map point goal times
  | Motion.Right => (right map point times, SelectionGoal.none)
  | Motion.NextWordStart ip => (next_word_start map point ip times, SelectionGoal.none)
  | Motion.NextWordEnd ip => (next_word_end map point ip times, SelectionGoal.none)
  | Motion.PreviousWordStart ip =>
    (previous_word_start map point ip times, SelectionGoal.none)
  | Motion.FirstNonWhitespace => (first_non_whitespace map point, SelectionGoal.none)
  | Motion.StartOfLine => (start_of_line map point, SelectionGoal.none)
  | Motion.EndOfLine => (end_of_line map point, SelectionGoal.none)
  | Motion.StartOfParagraph =>
    (Movement.start_of_paragraph map point times, SelectionGoal.none)
  | Motion.EndOfParagraph =>
    (clip_at_line_end map (Movement.end_of_paragraph map point times), SelectionGoal.none)
  | Motion.CurrentLine => (end_of_line map point, SelectionGoal.none)
  | Motion.StartOfDocument => (start_of_document map point times, SelectionGoal.none)
  | Motion.EndOfDocument => (end_of_document map point maybe_times, SelectionGoal.none)
  | Motion.Matching => (matching map point, SelectionGoal.none)
  | Motion.FindForward before text =>
    (find_forward map point before text times, SelectionGoal.none)
  | Motion.FindBackward after text =>
    (find_backward map point after text times, SelectionGoal.none)
  | Motion.NextLineStart => (next_line_start map point times, SelectionGoal.none)

/-- Translated from src/crates/vim/src/motion.rs: `Motion::move_point` —
the raw result is returned only when the position changed or the motion is
infallible (`(new_point != point || infallible).then_some(..)`). -/
def Motion.move_point (self : Motion) (map : DisplaySnapshot)
    (point : DisplayPoint) (goal : SelectionGoal) (maybe_times : Option Nat) :
    Option (DisplayPoint × SelectionGoal) :=
  let r := self.move_point_raw map point goal maybe_times
  if r.1 ≠ point ∨ self.infallible = true then some r else Option.none

/-- Lexicographic order on display points (row first, then column). -/
def dpLt (a b : DisplayPoint) : Prop :=
  a.row < b.row ∨ (a.row = b.row ∧ a.column < b.column)

instance (a b : DisplayPoint) : Decidable (dpLt a b) := by
  unfold dpLt
  infer_instance

/-- Modelled from the spec (section 3): a selection — a start/end pair, a
direction flag and a goal (`Selection<DisplayPoint>` in the language
crate). -/
structure Selection where
  start : DisplayPoint
  end_ : DisplayPoint
  reversed : Bool
  goal : SelectionGoal
deriving DecidableEq, Repr

/-- Modelled from the spec (section 3): the selection's head (cursor). -/
def Selection.head (s : Selection) : DisplayPoint :=
  if s.reversed then s.start else s.end_

/-- Modelled from the spec (section 3): the selection's anchor, opposite the
head. -/
def Selection.tail (s : Selection) : DisplayPoint :=
  if s.reversed then s.end_ else s.start

/-- Modelled from the spec (sections 3, 4.8): set the selection's head,
keeping the tail fixed and reordering start/end so that start precedes end,
with the direction tracked in `reversed`; the goal is replaced. -/
def Selection.set_head (s : Selection) (head : DisplayPoint) (goal : SelectionGoal) :
    Selection :=
  if dpLt head s.tail then
    { start := head, end_ := s.tail, reversed := true, goal := goal }
  else
    { start := s.tail, end_ := head, reversed := false, goal := goal }

/-- Translated from src/crates/vim/src/motion.rs: `Motion::expand_selection`
— resolve the motion on the head; on failure return false with the selection
untouched; otherwise set the head and apply the linewise snapping (with the
surrounding-newline handling and its early return) or the characterwise
exclusive-to-inclusive promotion and inclusive end extension. -/
def Motion.expand_selection (self : Motion) (map : DisplaySnapshot)
    (selection : Selection) (times : Option Nat)
    (expand_to_surrounding_newline : Bool) : Bool × Selection :=
  match self.move_point map selection.head selection.goal times with
  | Option.none => (false, selection)
  | some (new_head, goal) =>
    let s1 := selection.set_head new_head goal
    if self.linewise = true then
      let s2 := { s1 with start := (prev_line_boundary map s1.start).2 }
      if expand_to_surrounding_newline = true ∧ s2.end_.row < (max_point map).row then
        (true, { s2 with end_ := clip_point map ⟨s2.end_.row + 1, 0⟩ Bias.right })
      else
        let s3 :=
          if expand_to_surrounding_newline = true ∧ s2.start.row > 0 then
            { s2 with start :=
                clip_point map ⟨s2.start.row - 1, line_len map (s2.start.row - 1)⟩ Bias.left }
          else s2
        (true, { s3 with end_ := (next_line_boundary map s3.end_).2 })
    else
      let (inclusive, s2) :=
        if self.inclusive = false ∧ self ≠ Motion.Backspace ∧
            s1.start.row < s1.end_.row ∧ s1.end_.column = 0 then
          (true,
            { s1 with end_ :=
                clip_point map (next_line_boundary map ⟨s1.end_.row - 1, 0⟩).2 Bias.left })
        else (self.inclusive, s1)
      if inclusive = true ∧ s2.end_.column < line_len map s2.end_.row then
        (true, { s2 with end_ := ⟨s2.end_.row, s2.end_.column + 1⟩ })
      else (true, s2)

/-- Translated from src/crates/vim/src/motion.rs: `repeat_motion` — read the
repeat-find memory and compute the motion to re-issue (none when nothing
actionable is recorded); `backwards` swaps FindForward and FindBackward,
carrying the before flag into the after flag and vice versa. -/
def repeat_motion (backwards : Bool) (last_find : Option Motion) : Option Motion :=
  match last_find with
  | some (Motion.FindForward before text) =>
    if backwards then some (Motion.FindBackward before text)
    else some (Motion.FindForward before text)
  | some (Motion.FindBackward after text) =>
    if backwards then some (Motion.FindForward after text)
    else some (Motion.FindBackward after text)
  | _ => Option.none

/-- The linewise branch of selection expansion exactly as the specification
sentence words it, for comparison with `Motion.expand_selection`: snap
`start` to the previous line boundary of the pre-expansion start; when the
surrounding-blank-line flag is set, extend `end` into the following line
(or, at the document end, pull `start` back into the preceding line); and
afterwards always snap `end` to the next line boundary.  The characterwise
branch is not covered by that sentence and mirrors the source. -/
def expand_selection_spec (self : Motion) (map : DisplaySnapshot)
    (selection : Selection) (times : Option Nat)
    (expand_to_surrounding_newline : Bool) : Bool × Selection :=
  match self.move_point map selection.head selection.goal times with
  | Option.none => (false, selection)
  | some (new_head, goal) =>
    let pre_start := selection.start
    let s1 := selection.set_head new_head goal
    if self.linewise = true then
      let s2 := { s1 with start := (prev_line_boundary map pre_start).2 }
      let s3 :=
        if expand_to_surrounding_newline = true ∧ s2.end_.row < (max_point map).row then
          { s2 with end_ := clip_point map ⟨s2.end_.row + 1, 0⟩ Bias.right }
        else if expand_to_surrounding_newline = true ∧ s2.start.row > 0 then
          { s2 with start :=
              clip_point map ⟨s2.start.row - 1, line_len map (s2.start.row - 1)⟩ Bias.left }
        else s2
      (true, { s3 with end_ := (next_line_boundary map s3.end_).2 })
    else
      let (inclusive, s2) :=
        if self.inclusive = false ∧ self ≠ Motion.Backspace ∧
            s1.start.row < s1.end_.row ∧ s1.end_.column = 0 then
          (true,
            { s1 with end_ :=
                clip_point map (next_line_boundary map ⟨s1.end_.row - 1, 0⟩).2 Bias.left })
        else (self.inclusive, s1)
      if inclusive = true ∧ s2.end_.column < line_len map s2.end_.row then
        (true, { s2 with end_ := ⟨s2.end_.row, s2.end_.column + 1⟩ })
      else (true, s2)

/-- The NextWordEnd step exactly as the claim words it, for comparison with
`next_word_end`: after the forward scan, back off one column exactly when the
character after the landing position's character is a newline (or absent, at
the end of the document). -/
def next_word_end_claimed (map : DisplaySnapshot) (p : DisplayPoint)
    (ignore_punctuation : Bool) : Nat → DisplayPoint
  | 0 => p
  | t + 1 =>
    let p1 : DisplayPoint := ⟨p.row, p.column + 1⟩
    let p2 := find_boundary map p1 (fun l r =>
      let left_kind := (char_kind l).coerce_punctuation ignore_punctuation
      let right_kind := (char_kind r).coerce_punctuation ignore_punctuation
      decide (left_kind ≠ right_kind) && decide (left_kind ≠ CharKind.whitespace))
    let p3 : DisplayPoint :=
      if (((chars_at map p2).get? 1).map (fun cp => decide (cp.1 = '\n'))).getD true
      then ⟨p2.row, p2.column - 1⟩
      else p2
    next_word_end_claimed map (clip_point map p3 Bias.left) ignore_punctuation t

/-- The NextWordEnd step as the amended claim words it: after advancing one
column and forward-scanning for a class change whose left class is not
Whitespace, back off one column exactly when the character after the landing
position's character exists and is not a newline (at the end of a line or of
the document the scan result is already backtracked), and clip left. -/
def next_word_end_amended (map : DisplaySnapshot) (p : DisplayPoint)
    (ignore_punctuation : Bool) : Nat → DisplayPoint
  | 0 => p
  | t + 1 =>
    let p1 : DisplayPoint := ⟨p.row, p.column + 1⟩
    let p2 := find_boundary map p1 (fun l r =>
      let left_kind := (char_kind l).coerce_punctuation ignore_punctuation
      let right_kind := (char_kind r).coerce_punctuation ignore_punctuation
      decide (left_kind ≠ right_kind) && decide (left_kind ≠ CharKind.whitespace))
    let p3 : DisplayPoint :=
      match (chars_at map p2).get? 1 with
      | some cp => if cp.1 = '\n' then p2 else ⟨p2.row, p2.column - 1⟩
      | Option.none => p2
    next_word_end_amended map (clip_point map p3 Bias.left) ignore_punctuation t

/-- The qualifying candidate anchors of the bracket-matching loop, in
encounter order: for each pair, the opening anchor (paired with the closing
counterpart's start as destination) before the closing anchor (paired with
the opening counterpart's start), keeping only anchors at or after the
cursor offset and within the line's offset range; each candidate is the
(forward distance, destination) pair. -/
def matchingCandidates (offset : Nat) (line_range : Nat × Nat) :
    List ((Nat × Nat) × (Nat × Nat)) → List (Nat × Nat)
  | [] => []
  | pr :: rest =>
    (if offset ≤ pr.1.1 ∧ line_range.1 ≤ pr.1.1 ∧ pr.1.1 < line_range.2 then
      [(pr.1.1 - offset, pr.2.1)] else []) ++
    (if offset ≤ pr.2.1 ∧ line_range.1 ≤ pr.2.1 ∧ pr.2.1 < line_range.2 then
      [(pr.2.1 - offset, pr.1.1)] else []) ++
    matchingCandidates offset line_range rest

/-- Pick the earlier of a candidate and an optional best-so-far, preferring
the candidate on ties (it was encountered first). -/
def combineC (c : Nat × Nat) : Option (Nat × Nat) → Nat × Nat
  | Option.none => c
  | some m => if m.1 < c.1 then m else c

/-- First minimum of a candidate list by distance: the earliest candidate
whose distance is minimal. -/
def argminFirst : List (Nat × Nat) → Option (Nat × Nat)
  | [] => Option.none
  | c :: rest => some (combineC c (argminFirst rest))

/-- The bracket-matching accumulator loop over a flat candidate list. -/
def loopC : List (Nat × Nat) → Option Nat × Nat → Option Nat × Nat
  | [], acc => acc
  | c :: rest, (dest, closest) =>
    if c.1 < closest then loopC rest (some c.2, c.1)
    else loopC rest (dest, closest)

/-- The line span bracket matching works inside: from the previous line
boundary to the next line boundary, or to the document end when the cursor
sits exactly on the line boundary. -/
def matchingLineEnd (map : DisplaySnapshot) (p : DisplayPoint) : DisplayPoint :=
  let e0 := (next_line_boundary map p).1
  if e0 = p then max_point map else e0

/-- The offset range of the current line span used by bracket matching. -/
def matchingLineRange (map : DisplaySnapshot) (p : DisplayPoint) : Nat × Nat :=
  (to_offset map (prev_line_boundary map p).1, to_offset map (matchingLineEnd map p))

/-- The trimmed offset range (excluding the trailing line-terminator
position) that bracket matching queries the buffer with. -/
def matchingVisibleRange (map : DisplaySnapshot) (p : DisplayPoint) : Nat × Nat :=
  (to_offset map (prev_line_boundary map p).1,
    to_offset map ⟨(matchingLineEnd map p).row, (matchingLineEnd map p).column - 1⟩)

/-- The bracket pairs the matching loop iterates over: those overlapping the
trimmed current-line span. -/
def matchingPairs (map : DisplaySnapshot) (p : DisplayPoint) :
    List ((Nat × Nat) × (Nat × Nat)) :=
  (bracket_ranges map (matchingVisibleRange map p)).getD []

/-- Two-line document used by several concrete checks. -/
def docAB : DisplaySnapshot := ⟨["ab", "cd"], []⟩

/-- Three one-character lines, for the linewise surrounding-newline cases. -/
def docOneChar : DisplaySnapshot := ⟨["a", "b", "c"], []⟩

/-- Three two-character lines, for the linewise upward expansion case. -/
def docThree : DisplaySnapshot := ⟨["aa", "bb", "cc"], []⟩

/-- One line with two words, for the word-end and character-search checks. -/
def docWords : DisplaySnapshot := ⟨["ab cd"], []⟩

/-- One line of nested brackets with the two pairs the language layer would
report, outermost first. -/
def docBrackets : DisplaySnapshot := ⟨["{()}"], [((0, 1), (3, 4)), ((1, 2), (2, 3))]⟩

/-- C2: the static classification predicates return true for exactly the
sets the spec lists — linewise for Down, Up, StartOfDocument, EndOfDocument,
CurrentLine, NextLineStart, StartOfParagraph, EndOfParagraph; inclusive for
Down, Up, StartOfDocument, EndOfDocument, CurrentLine, EndOfLine,
NextWordEnd, Matching, FindForward, NextLineStart; infallible for
StartOfDocument, EndOfDocument, CurrentLine only. -/
theorem classification_tables (m : Motion) :
    (m.linewise = true ↔
      (m = Motion.Down ∨ m = Motion.Up ∨ m = Motion.StartOfDocument ∨
        m = Motion.EndOfDocument ∨ m = Motion.CurrentLine ∨ m = Motion.NextLineStart ∨
        m = Motion.StartOfParagraph ∨ m = Motion.EndOfParagraph)) ∧
    (m.inclusive = true ↔
      (m = Motion.Down ∨ m = Motion.Up ∨ m = Motion.StartOfDocument ∨
        m = Motion.EndOfDocument ∨ m = Motion.CurrentLine ∨ m = Motion.EndOfLine ∨
        (∃ b, m = Motion.NextWordEnd b) ∨ m = Motion.Matching ∨
        (∃ b t, m = Motion.FindForward b t) ∨ m = Motion.NextLineStart)) ∧
    (m.infallible = true ↔
      (m = Motion.StartOfDocument ∨ m = Motion.EndOfDocument ∨
        m = Motion.CurrentLine)) := by
  cases m <;>
    simp [Motion.linewise, Motion.inclusive, Motion.infallible]

/-- C1: resolving a motion returns failure (none) exactly when the computed
new position equals the input position and the motion is not classified
infallible; in particular an infallible motion never fails. -/
theorem move_point_none_iff (m : Motion) (map : DisplaySnapshot)
    (p : DisplayPoint) (g : SelectionGoal) (t : Option Nat) :
    m.move_point map p g t = Option.none ↔
      ((m.move_point_raw map p g t).1 = p ∧ m.infallible = false) := by
  rcases Bool.eq_false_or_eq_true m.infallible with hi | hi <;>
    by_cases h : (m.move_point_raw map p g t).1 = p <;>
      simp [Motion.move_point, h, hi]

/-- The saturating left step never changes the row. -/
theorem saturating_left_row (map : DisplaySnapshot) (p : DisplayPoint) :
    (Movement.saturating_left map p).row = p.row := by
  unfold Movement.saturating_left
  split <;> rfl

/-- The Left motion never changes the row. -/
theorem left_row (map : DisplaySnapshot) :
    ∀ (t : Nat) (p : DisplayPoint), (left map p t).row = p.row
  | 0, _ => rfl
  | t + 1, p => by
    simp only [left]
    split
    · exact saturating_left_row map p
    · rw [left_row map t _, saturating_left_row map p]

/-- C10: the Left motion stops at column 0 and (the saturating step staying
within the row) keeps the row of the input for every position and count,
while the Backspace motion repeats an unguarded left step and can cross onto
the previous line, as it does from (1,0) on the two-line document. -/
theorem left_stays_on_row_and_backspace_crosses :
    (∀ (map : DisplaySnapshot) (p : DisplayPoint) (times : Nat),
      (left map p times).row = p.row) ∧
    backspace docAB ⟨1, 0⟩ 1 = ⟨0, 2⟩ ∧
    (backspace docAB ⟨1, 0⟩ 1).row ≠ (⟨1, 0⟩ : DisplayPoint).row :=
  ⟨fun map p times => left_row map times p, by decide, by decide⟩

/-- C8: the repeat command re-issues the recorded find motion unchanged when
not reversed, swaps FindForward and FindBackward (carrying the before flag
into the after flag and vice versa, with the same text) when reversed, and
does nothing when no find motion is recorded. -/
theorem repeat_find_behavior :
    (∀ (before : Bool) (text : String),
      repeat_motion false (some (Motion.FindForward before text)) =
        some (Motion.FindForward before text) ∧
      repeat_motion true (some (Motion.FindForward before text)) =
        some (Motion.FindBackward before text)) ∧
    (∀ (after : Bool) (text : String),
      repeat_motion false (some (Motion.FindBackward after text)) =
        some (Motion.FindBackward after text) ∧
      repeat_motion true (some (Motion.FindBackward after text)) =
        some (Motion.FindForward after text)) ∧
    (∀ (backwards : Bool) (m : Motion),
      (∀ b t, m ≠ Motion.FindForward b t) →
      (∀ b t, m ≠ Motion.FindBackward b t) →
      repeat_motion backwards (some m) = Option.none) ∧
    (∀ backwards, repeat_motion backwards Option.none = Option.none) := by
  refine ⟨fun _ _ => ⟨rfl, rfl⟩, fun _ _ => ⟨rfl, rfl⟩, ?_, fun _ => rfl⟩
  intro backwards m hf hb
  cases m with
  | FindForward b t => exact absurd rfl (hf b t)
  | FindBackward b t => exact absurd rfl (hb b t)
  | _ => rfl

/-- Witness for C8 at concrete inputs: a recorded forward find is swapped on
reverse, and a non-find motion in the memory yields no repeat. -/
theorem repeat_find_behavior_witness :
    repeat_motion true (some (Motion.FindForward true "x")) =
      some (Motion.FindBackward true "x") ∧
    repeat_motion false (some Motion.Left) = Option.none :=
  ⟨(repeat_find_behavior.1 true "x").2,
    repeat_find_behavior.2.2.1 false Motion.Left
      (fun _ _ h => Motion.noConfusion h) (fun _ _ h => Motion.noConfusion h)⟩

/-- C3: when resolving the motion on the selection's head fails, expansion
returns false and the selection keeps all its fields. -/
theorem expand_selection_failure_unchanged (m : Motion) (map : DisplaySnapshot)
    (s : Selection) (times : Option Nat) (flag : Bool)
    (h : m.move_point map s.head s.goal times = Option.none) :
    m.expand_selection map s times flag = (false, s) := by
  unfold Motion.expand_selection
  rw [h]

/-- Witness for C3: Left at the document start fails and leaves the
selection untouched. -/
theorem expand_selection_failure_unchanged_witness :
    Motion.Left.move_point docAB
      (Selection.mk ⟨0, 0⟩ ⟨0, 0⟩ false SelectionGoal.none).head
      (Selection.mk ⟨0, 0⟩ ⟨0, 0⟩ false SelectionGoal.none).goal Option.none =
      Option.none ∧
    Motion.Left.expand_selection docAB
      (Selection.mk ⟨0, 0⟩ ⟨0, 0⟩ false SelectionGoal.none) Option.none false =
      (false, Selection.mk ⟨0, 0⟩ ⟨0, 0⟩ false SelectionGoal.none) :=
  ⟨by decide, expand_selection_failure_unchanged _ _ _ _ _ (by decide)⟩

/-- C7: when fewer than `times` matches exist in the scanned region, the
character-search functions return the original position unchanged and the
find motions (not being infallible) report failure through move_point. -/
theorem find_too_few_matches_fails (map : DisplaySnapshot) (p : DisplayPoint)
    (g : SelectionGoal) (before after : Bool) (target : String) (times : Nat)
    (hf : (forwardMatches map p target).length < times)
    (hb : (backwardMatches map p target).length < times) :
    find_forward map p before target times = p ∧
    find_backward map p after target times = p ∧
    (Motion.FindForward before target).move_point map p g (some times) =
      Option.none ∧
    (Motion.FindBackward after target).move_point map p g (some times) =
      Option.none := by
  have h1 : find_forward map p before target times = p := by
    unfold find_forward
    rw [List.get?_eq_none.2 (by omega)]
  have h2 : find_backward map p after target times = p := by
    unfold find_backward
    rw [List.get?_eq_none.2 (by omega)]
  refine ⟨h1, h2, ?_, ?_⟩
  · simp [Motion.move_point, Motion.move_point_raw, Motion.infallible, h1]
  · simp [Motion.move_point, Motion.move_point_raw, Motion.infallible, h2]

/-- Witness for C7: searching for an absent character on a one-line document
fails in both directions. -/
theorem find_too_few_matches_fails_witness :
    (forwardMatches docWords ⟨0, 0⟩ "z").length < 1 ∧
    (backwardMatches docWords ⟨0, 0⟩ "z").length < 1 ∧
    find_forward docWords ⟨0, 0⟩ false "z" 1 = ⟨0, 0⟩ ∧
    (Motion.FindForward false "z").move_point docWords ⟨0, 0⟩ SelectionGoal.none
      (some 1) = Option.none :=
  ⟨by decide, by decide,
    (find_too_few_matches_fails docWords ⟨0, 0⟩ SelectionGoal.none false false "z" 1
      (by decide) (by decide)).1,
    (find_too_few_matches_fails docWords ⟨0, 0⟩ SelectionGoal.none false false "z" 1
      (by decide) (by decide)).2.2.1⟩

/-- C6 counterexample: on the single line "ab cd" from (0,0), the next
character at the scan's landing position (0,2) is not a newline, so the
claim's rule ("back off one column if the next character is a newline")
leaves the boundary position (0,2), while the source backs off to (0,1),
the last character of the word. -/
theorem next_word_end_backoff_mismatch :
    next_word_end docWords ⟨0, 0⟩ false 1 = ⟨0, 1⟩ ∧
    next_word_end_claimed docWords ⟨0, 0⟩ false 1 = ⟨0, 2⟩ ∧
    next_word_end docWords ⟨0, 0⟩ false 1 ≠
      next_word_end_claimed docWords ⟨0, 0⟩ false 1 := by
  decide

/-- The back-off step of `next_word_end` equals the amended description:
back off one column exactly when the character after the landing position's
character exists and is not a newline. -/
theorem backoff_eq (map : DisplaySnapshot) (p2 : DisplayPoint) :
    (if !((((chars_at map p2).get? 1).map (fun cp => decide (cp.1 = '\n'))).getD true)
      then (⟨p2.row, p2.column - 1⟩ : DisplayPoint) else p2) =
    (match (chars_at map p2).get? 1 with
      | some cp => if cp.1 = '\n' then p2 else ⟨p2.row, p2.column - 1⟩
      | Option.none => p2) := by
  cases h : (chars_at map p2).get? 1 with
  | none => simp [h]
  | some cp => by_cases hc : cp.1 = '\n' <;> simp [h, hc]

/-- C6 (amended): each repetition of NextWordEnd advances one column,
forward-scans for a class change whose left class is not Whitespace, backs
off one column exactly when the character after the landing position's
character exists and is not a newline (at end of line or document the scan
result is already backtracked), and clips left — landing on the last
character of a word rather than the boundary after it. -/
theorem next_word_end_backoff_behavior (map : DisplaySnapshot)
    (p : DisplayPoint) (ignore_punctuation : Bool) (times : Nat) :
    next_word_end map p ignore_punctuation times =
      next_word_end_amended map p ignore_punctuation times := by
  induction times generalizing p with
  | zero => rfl
  | succ t ih =>
    simp only [next_word_end, next_word_end_amended]
    rw [backoff_eq]
    exact ih _

/-- C4: for a successful characterwise, non-inclusive, non-Backspace
expansion whose post-head-update end sits at column 0 of a row strictly
after the start row, the end is moved to the end of the row preceding the
landing row (and, the span now being inclusive, the end-extension step adds
nothing since the end already sits at the line's length). -/
theorem exclusive_promotion_at_column_zero (m : Motion) (map : DisplaySnapshot)
    (s : Selection) (times : Option Nat) (flag : Bool)
    (nh : DisplayPoint) (g : SelectionGoal)
    (h : m.move_point map s.head s.goal times = some (nh, g))
    (hlin : m.linewise = false) (hinc : m.inclusive = false)
    (hback : m ≠ Motion.Backspace)
    (hrow : (s.set_head nh g).start.row < (s.set_head nh g).end_.row)
    (hcol : (s.set_head nh g).end_.column = 0)
    (hle : (s.set_head nh g).end_.row ≤ max_buffer_row map) :
    m.expand_selection map s times flag =
      (true, { s.set_head nh g with
        end_ := ⟨(s.set_head nh g).end_.row - 1,
          line_len map ((s.set_head nh g).end_.row - 1)⟩ }) := by
  unfold Motion.expand_selection
  rw [h]
  have hC : m.inclusive = false ∧ m ≠ Motion.Backspace ∧
      (s.set_head nh g).start.row < (s.set_head nh g).end_.row ∧
      (s.set_head nh g).end_.column = 0 := ⟨hinc, hback, hrow, hcol⟩
  have hmin : min ((s.set_head nh g).end_.row - 1) (max_buffer_row map) =
      (s.set_head nh g).end_.row - 1 := by omega
  simp only [hlin, Bool.false_eq_true, if_false, if_pos hC, next_line_boundary,
    clip_point, hmin, min_self]
  rw [if_neg (by simp)]

/-- Witness for C4: NextWordStart from a collapsed selection at (0,0) on
["ab","cd"] lands at (1,0), column 0 of the row after the start row, and the
promoted end is the end (0,2) of the preceding row. -/
theorem exclusive_promotion_at_column_zero_witness :
    (Motion.NextWordStart false).move_point docAB
      (Selection.mk ⟨0, 0⟩ ⟨0, 0⟩ false SelectionGoal.none).head
      (Selection.mk ⟨0, 0⟩ ⟨0, 0⟩ false SelectionGoal.none).goal Option.none =
      some (⟨1, 0⟩, SelectionGoal.none) ∧
    ((Selection.mk ⟨0, 0⟩ ⟨0, 0⟩ false SelectionGoal.none).set_head ⟨1, 0⟩
      SelectionGoal.none).end_.column = 0 ∧
    (Motion.NextWordStart false).expand_selection docAB
      (Selection.mk ⟨0, 0⟩ ⟨0, 0⟩ false SelectionGoal.none) Option.none false =
      (true, Selection.mk ⟨0, 0⟩ ⟨0, 2⟩ false SelectionGoal.none) :=
  ⟨by decide, by decide,
    (exclusive_promotion_at_column_zero (Motion.NextWordStart false) docAB
      (Selection.mk ⟨0, 0⟩ ⟨0, 0⟩ false SelectionGoal.none) Option.none false
      ⟨1, 0⟩ SelectionGoal.none (by decide) (by decide) (by decide) (by decide)
      (by decide) (by decide) (by decide)).trans (by decide)⟩

/-- C5 counterexample: on ["aa","bb","cc"], Up with the surrounding-newline
flag from a collapsed selection at (1,1) gives start (0,0) and end (2,0) —
the start snapped is the post-head-update start, not the pre-expansion start
(1,1), and after extending the end into the following line the snap of the
end to the next line boundary is skipped — whereas the claim's description
gives start (1,0) and end (2,2). -/
theorem linewise_snap_spec_mismatch :
    Motion.Up.expand_selection docThree
      (Selection.mk ⟨1, 1⟩ ⟨1, 1⟩ false SelectionGoal.none) Option.none true =
      (true, Selection.mk ⟨0, 0⟩ ⟨2, 0⟩ true (SelectionGoal.column 1)) ∧
    expand_selection_spec Motion.Up docThree
      (Selection.mk ⟨1, 1⟩ ⟨1, 1⟩ false SelectionGoal.none) Option.none true =
      (true, Selection.mk ⟨1, 0⟩ ⟨2, 2⟩ true (SelectionGoal.column 1)) ∧
    Motion.Up.expand_selection docThree
      (Selection.mk ⟨1, 1⟩ ⟨1, 1⟩ false SelectionGoal.none) Option.none true ≠
      expand_selection_spec Motion.Up docThree
        (Selection.mk ⟨1, 1⟩ ⟨1, 1⟩ false SelectionGoal.none) Option.none true := by
  decide

/-- C5 (amended): for a successful linewise expansion, the start of the
post-head-update selection is snapped to its previous line boundary; with
the surrounding-blank-line flag set and the end not on the last row, the end
moves to column 0 of the following row and the final snap of the end is
skipped; otherwise (with the flag set at the last row) the start, when not
on row 0, is pulled back to the end of the preceding line, and in any
remaining case the end is snapped to the next line boundary of the (possibly
unchanged) selection end. -/
theorem linewise_expansion_shape (m : Motion) (map : DisplaySnapshot)
    (s : Selection) (times : Option Nat) (flag : Bool)
    (nh : DisplayPoint) (g : SelectionGoal)
    (h : m.move_point map s.head s.goal times = some (nh, g))
    (hlin : m.linewise = true)
    (hs : (s.set_head nh g).start.row ≤ max_buffer_row map)
    (he : (s.set_head nh g).end_.row ≤ max_buffer_row map) :
    m.expand_selection map s times flag =
      (if flag = true ∧ (s.set_head nh g).end_.row < max_buffer_row map then
        (true, { s.set_head nh g with
          start := ⟨(s.set_head nh g).start.row, 0⟩,
          end_ := ⟨(s.set_head nh g).end_.row + 1, 0⟩ })
      else if flag = true ∧ (s.set_head nh g).start.row > 0 then
        (true, { s.set_head nh g with
          start := ⟨(s.set_head nh g).start.row - 1,
            line_len map ((s.set_head nh g).start.row - 1)⟩,
          end_ := ⟨(s.set_head nh g).end_.row,
            line_len map ((s.set_head nh g).end_.row)⟩ })
      else
        (true, { s.set_head nh g with
          start := ⟨(s.set_head nh g).start.row, 0⟩,
          end_ := ⟨(s.set_head nh g).end_.row,
            line_len map ((s.set_head nh g).end_.row)⟩ })) := by
  unfold Motion.expand_selection
  rw [h]
  have hsr : min ((s.set_head nh g).start.row) (max_buffer_row map) =
      (s.set_head nh g).start.row := by omega
  have her : min ((s.set_head nh g).end_.row) (max_buffer_row map) =
      (s.set_head nh g).end_.row := by omega
  simp only [hlin, if_true, prev_line_boundary, next_line_boundary, clip_point,
    max_point, hsr, her]
  by_cases h1 : flag = true ∧ (s.set_head nh g).end_.row < max_buffer_row map
  · have hm1 : min ((s.set_head nh g).end_.row + 1) (max_buffer_row map) =
        (s.set_head nh g).end_.row + 1 := by omega
    simp [h1, hm1]
  · simp only [h1, if_false]
    by_cases h2 : flag = true ∧ (s.set_head nh g).start.row > 0
    · have hm2 : min ((s.set_head nh g).start.row - 1) (max_buffer_row map) =
          (s.set_head nh g).start.row - 1 := by omega
      simp [h1, h2, hm2, her]
    · simp [h1, h2, her]

/-- Witness for C5 at concrete inputs: Down with the surrounding-newline
flag from a collapsed selection at (0,0) on ["a","b","c"] extends the end to
(2,0) without the final snap. -/
theorem linewise_expansion_shape_witness :
    Motion.Down.move_point docOneChar
      (Selection.mk ⟨0, 0⟩ ⟨0, 0⟩ false SelectionGoal.none).head
      (Selection.mk ⟨0, 0⟩ ⟨0, 0⟩ false SelectionGoal.none).goal Option.none =
      some (⟨1, 0⟩, SelectionGoal.column 0) ∧
    Motion.Down.expand_selection docOneChar
      (Selection.mk ⟨0, 0⟩ ⟨0, 0⟩ false SelectionGoal.none) Option.none true =
      (true, Selection.mk ⟨0, 0⟩ ⟨2, 0⟩ false (SelectionGoal.column 0)) :=
  ⟨by decide,
    (linewise_expansion_shape Motion.Down docOneChar
      (Selection.mk ⟨0, 0⟩ ⟨0, 0⟩ false SelectionGoal.none) Option.none true
      ⟨1, 0⟩ (SelectionGoal.column 0) (by decide) (by decide) (by decide)
      (by decide)).trans (by decide)⟩

/-- The first-minimum combination step never increases the distance. -/
theorem combineC_fst_le (c : Nat × Nat) (o : Option (Nat × Nat)) :
    (combineC c o).1 ≤ c.1 := by
  cases o with
  | none => exact le_refl _
  | some m =>
    simp only [combineC]
    split <;> omega

/-- Running the flat candidate loop from an already-chosen candidate
computes the first minimum of the candidate prepended to the rest. -/
theorem loopC_some : ∀ (rest : List (Nat × Nat)) (c : Nat × Nat),
    loopC rest (some c.2, c.1) =
      (some (combineC c (argminFirst rest)).2, (combineC c (argminFirst rest)).1)
  | [], c => by simp [loopC, argminFirst, combineC]
  | c2 :: rest, c => by
    simp only [loopC, argminFirst]
    by_cases hlt : c2.1 < c.1
    · rw [if_pos hlt, loopC_some rest c2]
      generalize hm : combineC c2 (argminFirst rest) = m
      have hle : m.1 ≤ c2.1 := hm ▸ combineC_fst_le c2 (argminFirst rest)
      have hcc : combineC c (some m) = m := by
        simp only [combineC]
        rw [if_pos (by omega)]
      rw [hcc]
    · rw [if_neg hlt, loopC_some rest c]
      have hcc : combineC c (some (combineC c2 (argminFirst rest))) =
          combineC c (argminFirst rest) := by
        cases hA : argminFirst rest with
        | none =>
          show combineC c (some c2) = c
          simp only [combineC]
          rw [if_neg hlt]
        | some a =>
          show combineC c (some (if a.1 < c2.1 then a else c2)) = combineC c (some a)
          by_cases ha : a.1 < c2.1
          · rw [if_pos ha]
          · rw [if_neg ha]
            show (if c2.1 < c.1 then c2 else c) = if a.1 < c.1 then a else c
            rw [if_neg hlt, if_neg (by omega)]
      rw [hcc]

/-- Running the flat candidate loop from the sentinel accumulator computes
the first minimum of the candidate list, provided every distance beats the
sentinel. -/
theorem loopC_from_start (cands : List (Nat × Nat)) (M : Nat)
    (hb : ∀ x ∈ cands, x.1 < M) :
    loopC cands (Option.none, M) =
      (match argminFirst cands with
        | Option.none => (Option.none, M)
        | some m => (some m.2, m.1)) := by
  cases cands with
  | nil => rfl
  | cons c rest =>
    simp only [loopC, argminFirst]
    rw [if_pos (hb c (List.mem_cons_self _ _)), loopC_some rest c]

/-- The source's bracket loop (with its skip of a pair's closing anchor
after a successful opening update) equals the flat loop over the interleaved
candidate list, because a pair's opening delimiter never starts after its
closing delimiter. -/
theorem matchingLoop_eq_loopC (offset : Nat) (lr : Nat × Nat) :
    ∀ (pairs : List ((Nat × Nat) × (Nat × Nat))),
      (∀ pr ∈ pairs, pr.1.1 ≤ pr.2.1) →
      ∀ acc, matchingLoop offset lr pairs acc =
        loopC (matchingCandidates offset lr pairs) acc
  | [], _, acc => rfl
  | pr :: rest, hwf, (dest, closest) => by
    have hpr : pr.1.1 ≤ pr.2.1 := hwf pr (List.mem_cons_self _ _)
    have ihr := matchingLoop_eq_loopC offset lr rest
      (fun x hx => hwf x (List.mem_cons_of_mem _ hx))
    have hmono : ¬(pr.2.1 - offset < pr.1.1 - offset) := by omega
    simp only [matchingLoop, matchingCandidates]
    by_cases hq1 : offset ≤ pr.1.1 ∧ lr.1 ≤ pr.1.1 ∧ pr.1.1 < lr.2
    · rw [if_pos hq1]
      by_cases hd1 : pr.1.1 - offset < closest
      · rw [if_pos ⟨hq1.1, hq1.2.1, hq1.2.2, hd1⟩, ihr]
        by_cases hq2 : offset ≤ pr.2.1 ∧ lr.1 ≤ pr.2.1 ∧ pr.2.1 < lr.2
        · rw [if_pos hq2]
          simp only [List.cons_append, List.nil_append, loopC]
          rw [if_pos hd1, if_neg hmono]
          rfl
        · rw [if_neg hq2]
          simp only [List.cons_append, List.nil_append, loopC]
          rw [if_pos hd1]
          rfl
      · rw [if_neg (fun hc => hd1 hc.2.2.2)]
        by_cases hq2 : offset ≤ pr.2.1 ∧ lr.1 ≤ pr.2.1 ∧ pr.2.1 < lr.2
        · by_cases hd2 : pr.2.1 - offset < closest
          · rw [if_pos ⟨hq2.1, hq2.2.1, hq2.2.2, hd2⟩, ihr, if_pos hq2]
            simp only [List.cons_append, List.nil_append, loopC]
            rw [if_neg hd1, if_pos hd2]
            rfl
          · rw [if_neg (fun hc => hd2 hc.2.2.2), ihr, if_pos hq2]
            simp only [List.cons_append, List.nil_append, loopC]
            rw [if_neg hd1, if_neg hd2]
            rfl
        · rw [if_neg (fun hc => hq2 ⟨hc.1, hc.2.1, hc.2.2.1⟩), ihr, if_neg hq2]
          simp only [List.cons_append, List.nil_append, loopC]
          rw [if_neg hd1]
          rfl
    · rw [if_neg (fun hc => hq1 ⟨hc.1, hc.2.1, hc.2.2.1⟩), if_neg hq1]
      by_cases hq2 : offset ≤ pr.2.1 ∧ lr.1 ≤ pr.2.1 ∧ pr.2.1 < lr.2
      · by_cases hd2 : pr.2.1 - offset < closest
        · rw [if_pos ⟨hq2.1, hq2.2.1, hq2.2.2, hd2⟩, ihr, if_pos hq2]
          simp only [List.cons_append, List.nil_append, loopC]
          rw [if_pos hd2]
          rfl
        · rw [if_neg (fun hc => hd2 hc.2.2.2), ihr, if_pos hq2]
          simp only [List.cons_append, List.nil_append, loopC]
          rw [if_neg hd2]
          rfl
      · rw [if_neg (fun hc => hq2 ⟨hc.1, hc.2.1, hc.2.2.1⟩), ihr, if_neg hq2]
        rfl

/-- Every candidate's distance is below the usize sentinel when every
bracket anchor's offset is. -/
theorem matchingCandidates_bound (offset : Nat) (lr : Nat × Nat) :
    ∀ (pairs : List ((Nat × Nat) × (Nat × Nat))),
      (∀ pr ∈ pairs, pr.1.1 < usizeMax ∧ pr.2.1 < usizeMax) →
      ∀ x ∈ matchingCandidates offset lr pairs, x.1 < usizeMax
  | [], _, x, hx => absurd hx (List.not_mem_nil x)
  | pr :: rest, hb, x, hx => by
    have hpr := hb pr (List.mem_cons_self _ _)
    simp only [matchingCandidates, List.mem_append] at hx
    rcases hx with (hx | hx) | hx
    · by_cases hq : offset ≤ pr.1.1 ∧ lr.1 ≤ pr.1.1 ∧ pr.1.1 < lr.2
      · rw [if_pos hq] at hx
        simp only [List.mem_singleton] at hx
        subst hx
        exact lt_of_le_of_lt (Nat.sub_le _ _) hpr.1
      · rw [if_neg hq] at hx
        exact absurd hx (List.not_mem_nil _)
    · by_cases hq : offset ≤ pr.2.1 ∧ lr.1 ≤ pr.2.1 ∧ pr.2.1 < lr.2
      · rw [if_pos hq] at hx
        simp only [List.mem_singleton] at hx
        subst hx
        exact lt_of_le_of_lt (Nat.sub_le _ _) hpr.2
      · rw [if_neg hq] at hx
        exact absurd hx (List.not_mem_nil _)
    · exact matchingCandidates_bound offset lr rest
        (fun y hy => hb y (List.mem_cons_of_mem _ hy)) x hx

/-- The bracket-matching function, rephrased through its loop over the
overlapping pairs; definitional reformulation of `matching`. -/
theorem matching_eq_loop (map : DisplaySnapshot) (p : DisplayPoint) :
    matching map p =
      (match (matchingLoop (to_offset map p) (matchingLineRange map p)
          (matchingPairs map p) (Option.none, usizeMax)).1 with
        | some destination => to_display_point map destination
        | Option.none => p) := rfl

/-- C9: the Matching motion considers, among the bracket pairs overlapping
the trimmed current-line span, the opening anchors and the closing anchors
at or after the cursor and within the line (opening examined before closing
within a pair, pairs in encounter order), picks the first candidate of
minimum forward distance, and moves to its counterpart's start; with no
qualifying candidate the cursor does not move. -/
theorem matching_selects_closest_candidate (map : DisplaySnapshot)
    (p : DisplayPoint)
    (hwf : ∀ pr ∈ map.brackets, pr.1.1 ≤ pr.2.1)
    (hbound : ∀ pr ∈ map.brackets, pr.1.1 < usizeMax ∧ pr.2.1 < usizeMax) :
    matching map p =
      (match argminFirst (matchingCandidates (to_offset map p)
          (matchingLineRange map p) (matchingPairs map p)) with
        | Option.none => p
        | some m => to_display_point map m.2) := by
  have hsub : ∀ pr ∈ matchingPairs map p, pr ∈ map.brackets := by
    intro pr hpr
    exact (List.mem_filter.1 hpr).1
  have hwf' : ∀ pr ∈ matchingPairs map p, pr.1.1 ≤ pr.2.1 :=
    fun pr hpr => hwf pr (hsub pr hpr)
  have hbound' : ∀ pr ∈ matchingPairs map p, pr.1.1 < usizeMax ∧ pr.2.1 < usizeMax :=
    fun pr hpr => hbound pr (hsub pr hpr)
  rw [matching_eq_loop,
    matchingLoop_eq_loopC (to_offset map p) (matchingLineRange map p)
      (matchingPairs map p) hwf' (Option.none, usizeMax),
    loopC_from_start _ _
      (matchingCandidates_bound (to_offset map p) (matchingLineRange map p)
        (matchingPairs map p) hbound')]
  cases argminFirst (matchingCandidates (to_offset map p)
      (matchingLineRange map p) (matchingPairs map p)) <;> rfl

/-- Witness for C9: on the line "{()}" with the cursor at the outer opening
brace, the opening anchor at distance 0 wins and the cursor jumps to the
outer closing brace. -/
theorem matching_selects_closest_candidate_witness :
    (∀ pr ∈ docBrackets.brackets, pr.1.1 ≤ pr.2.1) ∧
    matching docBrackets ⟨0, 0⟩ = ⟨0, 3⟩ :=
  ⟨by decide,
    (matching_selects_closest_candidate docBrackets ⟨0, 0⟩ (by decide)
      (by decide)).trans (by decide)⟩

end ZedVimMotion
